import Mathlib

/-!
Formal model of the `utils/journal.py` module of LAMatHome: the typed entry
data model (pydantic `Entry` and its variants), the bounded dual-log history
store (`Journal`), and the resource download pipeline (`save_resources`).
Python dictionaries and JSON-ish payload values are modelled by the `Json`
type below; Python exceptions are modelled by the `PyErr` type together with
`Except`; external collaborators (signing service, HTTP transport, file
system) are modelled as oracle functions passed in as parameters.
-/

namespace LAMatHome

/-- JSON-like values: the model of untyped Python data reaching the journal
(payload dictionaries, nested `data` contents).  Numbers are modelled as
integers; the journal code never performs float-specific operations.
Python dictionaries are modelled as association lists (keys unique in any
dictionary produced by Python). -/
inductive Json where
  | null : Json
  | bool : Bool → Json
  | num : Int → Json
  | str : String → Json
  | arr : List Json → Json
  | obj : List (String × Json) → Json

/-- The Python exception classes that can arise in `utils/journal.py`,
carrying their message/argument. -/
inductive PyErr where
  | typeError : String → PyErr
  | valueError : String → PyErr
  | keyError : String → PyErr
  | attributeError : String → PyErr
  | indexError : String → PyErr
  | requestException : String → PyErr
deriving DecidableEq

/-- Python truthiness of a JSON-like value (`if x:`). -/
def Json.truthy : Json → Bool
  | .null => false
  | .bool b => b
  | .num n => n != 0
  | .str s => s != ""
  | .arr xs => !xs.isEmpty
  | .obj kvs => !kvs.isEmpty

/-- Python `d.get(k)` on something expected to be a dict: `AttributeError`
when the receiver is not a dict, otherwise `None` (here `Option.none`) when
the key is absent. -/
def pyObjGet (v : Json) (k : String) : Except PyErr (Option Json) :=
  match v with
  | .obj o => .ok (o.lookup k)
  | _ => .error (.attributeError "get")

/-- Python `d.get(k, dflt)` on something expected to be a dict. -/
def pyObjGetD (v : Json) (k : String) (dflt : Json) : Except PyErr Json :=
  match v with
  | .obj o => .ok ((o.lookup k).getD dflt)
  | _ => .error (.attributeError "get")

/-- Python iteration (`for x in v`): lists yield their elements, strings
yield their characters (as 1-character strings), dicts yield their keys,
and everything else raises `TypeError`. -/
def pyIter (v : Json) : Except PyErr (List Json) :=
  match v with
  | .arr xs => .ok xs
  | .str s => .ok (s.data.map (fun c => Json.str (String.mk [c])))
  | .obj o => .ok (o.map (fun p => Json.str p.1))
  | _ => .error (.typeError "object is not iterable")

/-! ### Timestamps

`Entry.convert_to_datetime` calls
`datetime.fromisoformat(value.replace('Z', '+00:00'))`.  We model the
CPython (3.11+) parser restricted to the extended ISO-8601 forms
(`YYYY-MM-DD`, optionally followed by a one-character separator and
`HH[:MM[:SS[.ffffff]]]`, optionally followed by a `Z`/`z` suffix or a
`±HH[:MM]` numeric offset); the compact basic forms without separators are
outside this model.  Offsets are whole minutes, as produced by that
grammar. -/

/-- A timezone-aware or naive datetime value: `tz` is the UTC offset in
minutes, `none` meaning a naive datetime. -/
structure DT where
  year : Nat
  month : Nat
  day : Nat
  hour : Nat
  minute : Nat
  second : Nat
  microsecond : Nat
  tz : Option Int
deriving DecidableEq

/-- Two ASCII digit characters to a number, `none` if either is not a digit. -/
def parse2 (a b : Char) : Option Nat :=
  if a.isDigit ∧ b.isDigit then some ((a.toNat - 48) * 10 + (b.toNat - 48)) else none

/-- Print a number below 100 as two ASCII digits. -/
def pad2 (n : Nat) : List Char := [Nat.digitChar (n / 10), Nat.digitChar (n % 10)]

/-- Consume two digit characters from the front of a character list. -/
def eat2 : List Char → Option (Nat × List Char)
  | a :: b :: rest => (parse2 a b).map (fun n => (n, rest))
  | _ => none

/-- Numeric value of a digit run (most significant first). -/
def natFromDigits (cs : List Char) : Nat :=
  cs.foldl (fun a c => a * 10 + (c.toNat - 48)) 0

/-- Microseconds from a fractional-seconds digit run: the first six digits,
scaled up when fewer than six are present (CPython truncates beyond six). -/
def microOfFrac (ds : List Char) : Nat :=
  natFromDigits (ds.take 6) * 10 ^ (6 - min 6 ds.length)

/-- A parsed-but-not-yet-validated datetime: the offset is kept as
(negative?, hours, minutes). -/
structure RawDT where
  y : Nat
  mo : Nat
  dd : Nat
  h : Nat
  mi : Nat
  s : Nat
  us : Nat
  off : Option (Bool × Nat × Nat)
deriving DecidableEq

/-- Parse the tail of a numeric UTC offset (after the sign): `HH` or `HH:MM`. -/
def parseOffsetTail (neg : Bool) (cs : List Char) : Option (Option (Bool × Nat × Nat)) :=
  match eat2 cs with
  | none => none
  | some (oh, rest) =>
    match rest with
    | [] => some (some (neg, oh, 0))
    | ':' :: rest2 =>
      match eat2 rest2 with
      | some (om, []) => some (some (neg, oh, om))
      | _ => none
    | _ => none

/-- Parse an optional trailing timezone designator: empty (naive), `Z`/`z`
(UTC), or a signed numeric offset. -/
def parseOffset : List Char → Option (Option (Bool × Nat × Nat))
  | [] => some none
  | ['Z'] => some (some (false, 0, 0))
  | ['z'] => some (some (false, 0, 0))
  | '+' :: rest => parseOffsetTail false rest
  | '-' :: rest => parseOffsetTail true rest
  | _ => none

/-- Parse a fractional-seconds digit run followed by an optional offset. -/
def parseFrac (h mi s : Nat) (cs : List Char) :
    Option (Nat × Nat × Nat × Nat × Option (Bool × Nat × Nat)) :=
  let ds := cs.takeWhile Char.isDigit
  let rest := cs.dropWhile Char.isDigit
  if ds.isEmpty then none
  else (parseOffset rest).map (fun off => (h, mi, s, microOfFrac ds, off))

/-- Parse the time-of-day part `HH[:MM[:SS[(.|,)ffffff]]]` plus optional
offset. -/
def parseTime (cs : List Char) : Option (Nat × Nat × Nat × Nat × Option (Bool × Nat × Nat)) :=
  match eat2 cs with
  | none => none
  | some (h, rest) =>
    match rest with
    | ':' :: rest2 =>
      match eat2 rest2 with
      | none => none
      | some (mi, rest3) =>
        match rest3 with
        | ':' :: rest4 =>
          match eat2 rest4 with
          | none => none
          | some (s, rest5) =>
            match rest5 with
            | '.' :: rest6 => parseFrac h mi s rest6
            | ',' :: rest6 => parseFrac h mi s rest6
            | _ => (parseOffset rest5).map (fun off => (h, mi, s, 0, off))
        | _ => (parseOffset rest3).map (fun off => (h, mi, 0, 0, off))
    | _ => (parseOffset rest).map (fun off => (h, 0, 0, 0, off))

/-- Parse the date part `YYYY-MM-DD`, then either end of input (midnight,
naive) or one arbitrary separator character followed by the time part. -/
def parseRawISO (cs : List Char) : Option RawDT :=
  match eat2 cs with
  | none => none
  | some (yh, cs1) =>
    match eat2 cs1 with
    | none => none
    | some (yl, cs2) =>
      match cs2 with
      | '-' :: cs3 =>
        match eat2 cs3 with
        | none => none
        | some (mo, cs4) =>
          match cs4 with
          | '-' :: cs5 =>
            match eat2 cs5 with
            | none => none
            | some (dd, cs6) =>
              match cs6 with
              | [] => some ⟨yh * 100 + yl, mo, dd, 0, 0, 0, 0, none⟩
              | _ :: cs7 =>
                (parseTime cs7).map
                  (fun x => ⟨yh * 100 + yl, mo, dd, x.1, x.2.1, x.2.2.1, x.2.2.2.1, x.2.2.2.2⟩)
          | _ => none
      | _ => none

/-- Proleptic Gregorian leap year test. -/
def isLeap (y : Nat) : Bool := (y % 4 == 0 && y % 100 != 0) || y % 400 == 0

/-- Days in a month of the proleptic Gregorian calendar. -/
def daysInMonth (y m : Nat) : Nat :=
  if m = 2 then (if isLeap y then 29 else 28)
  else if m = 4 ∨ m = 6 ∨ m = 9 ∨ m = 11 then 30
  else 31

/-- Range condition on a raw offset: hours below 24, minutes below 60. -/
def rawOffOK : Option (Bool × Nat × Nat) → Prop
  | none => True
  | some (_, oh, om) => oh ≤ 23 ∧ om ≤ 59

instance : ∀ o, Decidable (rawOffOK o)
  | none => inferInstanceAs (Decidable True)
  | some (_, _, _) => inferInstanceAs (Decidable (_ ∧ _))

/-- Signed minutes of a raw offset. -/
def toOffsetInt : Bool × Nat × Nat → Int
  | (neg, oh, om) => if neg then -((oh * 60 + om : Nat) : Int) else ((oh * 60 + om : Nat) : Int)

/-- The range validation CPython performs before building the `datetime`
(year 1–9999, valid month/day, time fields in range, offset below 24 h).
The microsecond bound always holds by construction of `microOfFrac`. -/
def validateRaw (r : RawDT) : Option DT :=
  if 1 ≤ r.y ∧ r.y ≤ 9999 ∧ 1 ≤ r.mo ∧ r.mo ≤ 12 ∧ 1 ≤ r.dd ∧ r.dd ≤ daysInMonth r.y r.mo ∧
      r.h ≤ 23 ∧ r.mi ≤ 59 ∧ r.s ≤ 59 ∧ r.us ≤ 999999 ∧ rawOffOK r.off
  then some ⟨r.y, r.mo, r.dd, r.h, r.mi, r.s, r.us, r.off.map toOffsetInt⟩
  else none

/-- The model of `datetime.fromisoformat` (see the section comment for the
modelled grammar). -/
def parseISO (cs : List Char) : Option DT := (parseRawISO cs).bind validateRaw

/-- Replace every occurrence of the character `t` by the character list `r`
(Python `str.replace` with a single-character pattern). -/
def expandChar (t : Char) (r : List Char) : List Char → List Char
  | [] => []
  | c :: cs => (if c = t then r else [c]) ++ expandChar t r cs

/-- `value.replace('Z', '+00:00')` from `Entry.convert_to_datetime`. -/
def replaceZ (cs : List Char) : List Char :=
  expandChar 'Z' ('+' :: '0' :: '0' :: ':' :: '0' :: '0' :: []) cs

/-- The `Entry.convert_to_datetime` field validator:
`datetime.fromisoformat(value.replace('Z', '+00:00'))`, re-raising parse
failures as `ValueError(f"Invalid date format: {value}")`. -/
def convert_to_datetime (value : String) : Except PyErr DT :=
  match parseISO (replaceZ value.data) with
  | some d => .ok d
  | none => .error (.valueError ("Invalid date format: " ++ value))

/-- Six ASCII digits of a microsecond count below 1000000. -/
def microChars (us : Nat) : List Char :=
  pad2 (us / 10000) ++ pad2 (us / 100 % 100) ++ pad2 (us % 100)

/-- `±HH:MM` rendering of a UTC offset, as `datetime.isoformat` produces for
whole-minute offsets. -/
def offsetChars : Option Int → List Char
  | none => []
  | some off => (if off < 0 then '-' else '+') :: (pad2 (off.natAbs / 60) ++ ':' :: pad2 (off.natAbs % 60))

/-- Characters of `datetime.isoformat()`: `YYYY-MM-DDTHH:MM:SS`, then
`.ffffff` when the microsecond field is nonzero, then the offset when the
value is aware. -/
def isoformatChars (d : DT) : List Char :=
  pad2 (d.year / 100) ++ pad2 (d.year % 100) ++ '-' ::
    (pad2 d.month ++ '-' ::
      (pad2 d.day ++ 'T' ::
        (pad2 d.hour ++ ':' ::
          (pad2 d.minute ++ ':' ::
            (pad2 d.second ++
              (if d.microsecond = 0 then [] else '.' :: microChars d.microsecond) ++
              offsetChars d.tz)))))

/-- `datetime.isoformat()`. -/
def DT.isoformat (d : DT) : String := String.mk (isoformatChars d)

/-- The ranges guaranteed for every `DT` produced by `parseISO`. -/
def DT.InRange (d : DT) : Prop :=
  1 ≤ d.year ∧ d.year ≤ 9999 ∧ 1 ≤ d.month ∧ d.month ≤ 12 ∧ 1 ≤ d.day ∧
    d.day ≤ daysInMonth d.year d.month ∧ d.hour ≤ 23 ∧ d.minute ≤ 59 ∧
    d.second ≤ 59 ∧ d.microsecond ≤ 999999 ∧ ∀ o, d.tz = some o → o.natAbs ≤ 1439

/-- Days of the proleptic Gregorian calendar strictly before year `y`. -/
def daysBeforeYear (y : Nat) : Nat :=
  (y - 1) * 365 + (y - 1) / 4 - (y - 1) / 100 + (y - 1) / 400

/-- Days of year `y` strictly before month `m`. -/
def daysBeforeMonth (y m : Nat) : Nat :=
  ((List.range (m - 1)).map (fun i => daysInMonth y (i + 1))).sum

/-- The absolute instant denoted by a datetime, in microseconds from the
epoch 0001-01-01T00:00:00 UTC; a naive datetime is read as offset 0. -/
def DT.toInstant (d : DT) : Int :=
  (((((daysBeforeYear d.year + daysBeforeMonth d.year d.month + (d.day - 1)) * 24 +
      d.hour) * 60 + d.minute) * 60 + d.second) * 1000000 + d.microsecond : Nat) -
    (d.tz.getD 0) * 60000000

/-! ### Python string renderings -/

/-- JSON string escaping for `json.dumps` (quote and backslash; other
escapes do not occur in the strings this module produces). -/
def jsonEscape (s : String) : String :=
  String.mk (s.data.foldr
    (fun c acc =>
      (if c = '"' then ['\\', '"'] else if c = '\\' then ['\\', '\\'] else [c]) ++ acc) [])

mutual

/-- `json.dumps` with CPython's default separators. -/
def jsonDumps : Json → String
  | .null => "null"
  | .bool true => "true"
  | .bool false => "false"
  | .num n => toString n
  | .str s => "\"" ++ jsonEscape s ++ "\""
  | .arr xs => "[" ++ jsonDumpsList xs ++ "]"
  | .obj kvs => "\x7b" ++ jsonDumpsObj kvs ++ "\x7d"

/-- Comma-joined `json.dumps` of list elements. -/
def jsonDumpsList : List Json → String
  | [] => ""
  | [x] => jsonDumps x
  | x :: y :: rest => jsonDumps x ++ ", " ++ jsonDumpsList (y :: rest)

/-- Comma-joined `json.dumps` of dict items. -/
def jsonDumpsObj : List (String × Json) → String
  | [] => ""
  | [(k, v)] => "\"" ++ jsonEscape k ++ "\": " ++ jsonDumps v
  | (k, v) :: y :: rest =>
    "\"" ++ jsonEscape k ++ "\": " ++ jsonDumps v ++ ", " ++ jsonDumpsObj (y :: rest)

end

mutual

/-- Python `repr` of a JSON-like value (string escaping inside containers is
not reproduced; the journal only ever renders scalar values this way). -/
def pyRepr : Json → String
  | .null => "None"
  | .bool true => "True"
  | .bool false => "False"
  | .num n => toString n
  | .str s => "'" ++ s ++ "'"
  | .arr xs => "[" ++ pyReprList xs ++ "]"
  | .obj kvs => "\x7b" ++ pyReprObj kvs ++ "\x7d"

/-- Comma-joined `repr` of list elements. -/
def pyReprList : List Json → String
  | [] => ""
  | [x] => pyRepr x
  | x :: y :: rest => pyRepr x ++ ", " ++ pyReprList (y :: rest)

/-- Comma-joined `repr` of dict items. -/
def pyReprObj : List (String × Json) → String
  | [] => ""
  | [(k, v)] => "'" ++ k ++ "': " ++ pyRepr v
  | (k, v) :: y :: rest => "'" ++ k ++ "': " ++ pyRepr v ++ ", " ++ pyReprObj (y :: rest)

end

/-- Python `str()` as used by f-string interpolation. -/
def pyStr : Json → String
  | .str s => s
  | v => pyRepr v

/-! ### The entry model -/

/-- The pydantic classes an entry can be constructed as: the variants of
`entry_type_mapping` plus the base `Entry` class itself (the fallback of the
module-level factory `create_entry_model`). -/
inductive EntryClass where
  | aiGeneratedImage : EntryClass
  | magicCam : EntryClass
  | vision : EntryClass
  | note : EntryClass
  | conversation : EntryClass
  | search : EntryClass
  | searchMemory : EntryClass
  | base : EntryClass
deriving DecidableEq

/-- A validated entry.  The Python object's class (which decides whether a
`get_resource_urls` method exists) is carried in `cls`. -/
structure Entry where
  id : String
  userId : String
  createdOn : DT
  modifiedOn : DT
  archived : Bool
  type : String
  title : String
  data : List (String × Json)
  utterance : List (String × String)
  cls : EntryClass

/-- The `entry_type_mapping` dictionary. -/
def entry_type_mapping : List (String × EntryClass) :=
  [("ai-generated-image", .aiGeneratedImage),
   ("magic-camera", .magicCam),
   ("vision", .vision),
   ("note", .note),
   ("conversation", .conversation),
   ("beta-rabbit", .conversation),
   ("search", .search),
   ("search-memory", .searchMemory)]

/-- pydantic v2 validation of a `str` field (no coercion from other types). -/
def pydStr : Json → Option String
  | .str s => some s
  | _ => none

/-- ASCII lowercasing (`str.lower` on the strings this module compares). -/
def lowerAscii (s : String) : String :=
  String.mk (s.data.map (fun c => if 'A' ≤ c ∧ c ≤ 'Z' then Char.ofNat (c.toNat + 32) else c))

/-- pydantic v2 lax validation of a `bool` field (bools, the ints 0/1, and
the documented truthy/falsy strings). -/
def pyBoolCoerce : Json → Option Bool
  | .bool b => some b
  | .num 0 => some false
  | .num 1 => some true
  | .str s =>
    if lowerAscii s ∈ ["0", "off", "f", "false", "n", "no"] then some false
    else if lowerAscii s ∈ ["1", "on", "t", "true", "y", "yes"] then some true
    else none
  | _ => none

/-- pydantic validation of a `Dict[str, Any]` field. -/
def pydDict : Json → Option (List (String × Json))
  | .obj o => some o
  | _ => none

/-- pydantic validation of a `Dict[str, str]` field. -/
def pydStrDict : Json → Option (List (String × String))
  | .obj o => o.mapM (fun p => (pydStr p.2).map (fun s => (p.1, s)))
  | _ => none

/-- One timestamp field run through the `convert_to_datetime` before-mode
validator: a missing value or a `ValueError` from the validator is a
pydantic validation failure (`.ok none`); a non-string value raises
`AttributeError` from `value.replace`, which pydantic does not convert and
which therefore propagates (`.error`). -/
def timestampField : Option Json → Except PyErr (Option DT)
  | none => .ok none
  | some (.str s) =>
    match convert_to_datetime s with
    | .ok d => .ok (some d)
    | .error _ => .ok none
  | some _ => .error (.attributeError "replace")

/-- Models `cls(**entry_data)` for a pydantic `Entry` subclass: required
fields present and type-correct, timestamps run through the before-mode
validator, extra keys ignored, `id` populated from the `_id` alias, the
field name (`populate_by_name`), or the generated default.  Per-field
validation failures become one `ValueError` (pydantic's `ValidationError`,
message abbreviated here); a non-`ValueError` escaping a validator
propagates as-is and preempts the collected failures. -/
def mkEntry (cls : EntryClass) (freshId : String) (kvs : List (String × Json)) :
    Except PyErr Entry :=
  let idF : Option String :=
    match kvs.lookup "_id", kvs.lookup "id" with
    | some v, _ => pydStr v
    | none, some v => pydStr v
    | none, none => some freshId
  let userIdF : Option String := (kvs.lookup "userId").bind pydStr
  match timestampField (kvs.lookup "createdOn") with
  | .error e => .error e
  | .ok createdF =>
    match timestampField (kvs.lookup "modifiedOn") with
    | .error e => .error e
    | .ok modifiedF =>
      let archivedF : Option Bool := (kvs.lookup "archived").bind pyBoolCoerce
      let typeF : Option String := (kvs.lookup "type").bind pydStr
      let titleF : Option String := (kvs.lookup "title").bind pydStr
      let dataF : Option (List (String × Json)) := (kvs.lookup "data").bind pydDict
      let uttF : Option (List (String × String)) := (kvs.lookup "utterance").bind pydStrDict
      match idF, userIdF, createdF, modifiedF, archivedF, typeF, titleF, dataF, uttF with
      | some i, some u, some c, some m, some a, some ty, some ti, some da, some ut =>
        .ok ⟨i, u, c, m, a, ty, ti, da, ut, cls⟩
      | _, _, _, _, _, _, _, _, _ => .error (.valueError "validation error for Entry")

/-- The comprehension
`[file.get('url') for file in files if file.get('url')]`: for each file (in
order) look up `url` (`AttributeError` if the file is not a dict, aborting
the whole comprehension) and keep the value when truthy. -/
def collectUrls : List Json → Except PyErr (List Json)
  | [] => .ok []
  | f :: fs =>
    match pyObjGet f "url" with
    | .error e => .error e
    | .ok u =>
      match collectUrls fs with
      | .error e => .error e
      | .ok rest =>
        .ok ((match u with
              | some x => if x.truthy then [x] else []
              | none => []) ++ rest)

/-- The common body of the three `get_resource_urls` overrides:
the comprehension above applied to `self.data[outerKey].get(listKey, [])`,
guarded by `if outerKey in self.data`. -/
def extractFiles (data : List (String × Json)) (outerKey listKey : String) :
    Except PyErr (List Json) :=
  match data.lookup outerKey with
  | none => .ok []
  | some v =>
    match pyObjGetD v listKey (Json.arr []) with
    | .error e => .error e
    | .ok filesJson =>
      match pyIter filesJson with
      | .error e => .error e
      | .ok files => collectUrls files

/-- Attribute lookup of `get_resource_urls` followed by the call: the three
resource-bearing classes have the method; every other class (including the
base `Entry`) has no such attribute, so the call raises `AttributeError`. -/
def Entry.get_resource_urls (e : Entry) : Except PyErr (List Json) :=
  match e.cls with
  | .vision => extractFiles e.data "visionData" "files"
  | .magicCam => extractFiles e.data "magicCameraData" "aiGeneratedImages"
  | .aiGeneratedImage => extractFiles e.data "aiGeneratedImageData" "files"
  | _ => .error (.attributeError "get_resource_urls")

/-- The module-level factory `create_entry_model`:
`entry_type_mapping.get(entry_type, Entry)(**entry_data)` — an unknown (or
missing, or non-string) `type` silently falls back to the base `Entry`
class. -/
def create_entry_model (freshId : String) (entry_data : List (String × Json)) :
    Except PyErr Entry :=
  let entryClass :=
    (match entry_data.lookup "type" with
      | some (.str s) => entry_type_mapping.lookup s
      | _ => none).getD .base
  mkEntry entryClass freshId entry_data

/-! ### The history store -/

/-- One derived interaction record (a Python dict with the fixed keys
`_id`, `date`, `user utterance`, `LAH action`). -/
structure Interaction where
  id : String
  date : DT
  userUtterance : String
  lahAction : String

/-- The `Journal`: two `deque(maxlen=max_entries)` logs. The shared
`maxlen` is carried once and applied on every append. -/
structure Journal where
  maxEntries : Nat
  entries : List Entry
  interactions : List Interaction

/-- `Journal(max_entries)`. -/
def Journal.init (max_entries : Nat) : Journal :=
  { maxEntries := max_entries, entries := [], interactions := [] }

/-- `deque(maxlen=n).append`: append on the right, evicting from the left
while over capacity. -/
def dequeAppend (maxlen : Nat) (xs : List α) (x : α) : List α :=
  let ys := xs ++ [x]
  if maxlen < ys.length then ys.drop (ys.length - maxlen) else ys

/-- `Journal._create_basic_entry`: the synthetic conversation-shaped
payload built from a plain text string (`uuid1` and `datetime.now` are the
`freshId`/`now` parameters). -/
def Journal._create_basic_entry (freshId : String) (now : DT) (user_input : String) :
    List (String × Json) :=
  [("_id", .str freshId),
   ("userId", .str "local_user"),
   ("createdOn", .str now.isoformat),
   ("modifiedOn", .str now.isoformat),
   ("archived", .bool false),
   ("type", .str "conversation"),
   ("title", .str "CLI Input"),
   ("data", .obj [("conversationData", .obj [("textContent", .str "")])]),
   ("utterance", .obj [("prompt", .str user_input), ("intention", .str "CONVERSATION")])]

/-- `Journal._create_entry`: dispatch on `entry_type_mapping.get(type)`;
known class → construct, catching any construction failure (`None` result);
unknown class → `raise ValueError(f"Unknown entry type: {entry_type}")`. -/
def Journal._create_entry (freshId : String) (entry_data : List (String × Json)) :
    Except PyErr (Option Entry) :=
  let entry_type := entry_data.lookup "type"
  match
    (match entry_type with
      | some (.str s) => entry_type_mapping.lookup s
      | _ => none) with
  | some cls =>
    match mkEntry cls freshId entry_data with
    | .ok e => .ok (some e)
    | .error _ => .ok none
  | none => .error (.valueError ("Unknown entry type: " ++ pyStr (entry_type.getD .null)))

/-- Which exceptions `except (TypeError, ValueError)` catches. -/
def isTVError : PyErr → Bool
  | .typeError _ => true
  | .valueError _ => true
  | _ => false

/-- `Journal._add_interaction`: builds the interaction dict (reading
`entry.utterance['prompt']`, a `KeyError` when absent) and appends it to the
interactions deque. -/
def Journal._add_interaction (j : Journal) (entry : Entry) (task_response : String) :
    Except PyErr Journal :=
  match entry.utterance.lookup "prompt" with
  | none => .error (.keyError "prompt")
  | some p =>
    .ok { j with
          interactions :=
            dequeAppend j.maxEntries j.interactions
              ⟨entry.id, entry.createdOn, p, task_response⟩ }

/-- The `entry_data` argument of `add_entry`: a raw payload dict or a plain
text string. -/
inductive EntryData where
  | str : String → EntryData
  | dict : List (String × Json) → EntryData

/-- `Journal.add_entry`.  The error type carries the journal state at the
raise point, since Python exceptions do not roll back `self`.  Text input is
normalized through `_create_basic_entry`; the try block covers entry
creation, the entries append, and `_add_interaction`, and
`except (TypeError, ValueError)` converts those to a `None` result.
`if entry:` is always true for a constructed model, and `if llm_response:`
is Python truthiness (an empty string counts as no response). -/
def Journal.add_entry (j : Journal) (freshId : String) (now : DT)
    (entry_data : EntryData) (llm_response : Option String) :
    Except (PyErr × Journal) (Journal × Option Entry) :=
  let d :=
    match entry_data with
    | .str s => Journal._create_basic_entry freshId now s
    | .dict kvs => kvs
  match Journal._create_entry freshId d with
  | .error e => if isTVError e then .ok (j, none) else .error (e, j)
  | .ok none => .ok (j, none)
  | .ok (some entry) =>
    let j' := { j with entries := dequeAppend j.maxEntries j.entries entry }
    match llm_response with
    | none => .ok (j', some entry)
    | some r =>
      if r = "" then .ok (j', some entry)
      else
        match j'._add_interaction entry r with
        | .ok j'' => .ok (j'', some entry)
        | .error e => if isTVError e then .ok (j', none) else .error (e, j')

/-- A sequence of `add_entry` calls (each with its own generated id,
payload, and optional response), stopping at the first escaped exception. -/
def Journal.addAll (j : Journal) (now : DT) :
    List (String × EntryData × Option String) →
      Except (PyErr × Journal) (Journal × List (Option Entry))
  | [] => .ok (j, [])
  | (fid, d, r) :: rest =>
    match j.add_entry fid now d r with
    | .ok (j', o) =>
      match j'.addAll now rest with
      | .ok (j'', os) => .ok (j'', o :: os)
      | .error e => .error e
    | .error e => .error e

/-- `Journal.last_entry`. -/
def Journal.last_entry (j : Journal) : Option Entry := j.entries.getLast?

/-- `Journal.get_entries`. -/
def Journal.get_entries (j : Journal) : List Entry := j.entries

/-- `Journal.get_entry_by_id`: first match in insertion order. -/
def Journal.get_entry_by_id (j : Journal) (entry_id : String) : Option Entry :=
  j.entries.find? (fun e => e.id == entry_id)

/-- `Journal.get_entry_by_index`: bounds-checked positional lookup. -/
def Journal.get_entry_by_index (j : Journal) (index : Nat) : Option Entry :=
  j.entries.get? index

/-- `Journal.last_interaction`. -/
def Journal.last_interaction (j : Journal) : Option Interaction := j.interactions.getLast?

/-- `Journal.get_interactions`. -/
def Journal.get_interactions (j : Journal) : List Interaction := j.interactions

/-- `Journal.get_interaction_by_id`: first match in insertion order. -/
def Journal.get_interaction_by_id (j : Journal) (entry_id : String) : Option Interaction :=
  j.interactions.find? (fun i => i.id == entry_id)

/-- `Journal.get_interaction_by_index`: bounds-checked positional lookup. -/
def Journal.get_interaction_by_index (j : Journal) (index : Nat) : Option Interaction :=
  j.interactions.get? index

/-! ### The resource pipeline

The external collaborators are oracles: `sign` is
`rabbit_hole.fetch_user_entry_resource`, `fetch` is `requests.get` plus
`raise_for_status` plus `.content` (bytes as `List Nat`), `write` is the
`open(..., 'wb+')`/`file.write` pair. -/

/-- `Journal.get_signed_resource_urls`: call the signing service with the
JSON-encoded raw URL list and read `response.get('resources', [])`; any
exception inside the try block (including from `get_resource_urls` itself or
a non-dict response) is caught and yields `[]`. -/
def Journal.get_signed_resource_urls (sign : String → Except PyErr Json) (entry : Entry) :
    Json :=
  match entry.get_resource_urls with
  | .error _ => Json.arr []
  | .ok urls =>
    match sign (jsonDumps (Json.arr urls)) with
    | .error _ => Json.arr []
    | .ok resp =>
      match pyObjGetD resp "resources" (Json.arr []) with
      | .error _ => Json.arr []
      | .ok v => v

/-- Python `s.split(sep)` for a single-character separator: split at every
occurrence, keeping empty pieces (`"".split(sep)` is `[""]`). -/
def pySplitChar (sep : Char) (cs : List Char) : List (List Char) :=
  cs.foldr
    (fun c acc =>
      if c = sep then [] :: acc
      else
        match acc with
        | h :: t => (c :: h) :: t
        | [] => [[c]])
    [[]]

/-- `url.split('/')[-1]`. -/
def lastComponent (s : String) : String :=
  String.mk ((pySplitChar '/' s.data).getLastD [])

/-- `os.path.join(directory, name)` (POSIX, two arguments). -/
def pathJoin (dir name : String) : String :=
  if name.data.head? = some '/' then name
  else if dir.data.isEmpty then name
  else if dir.data.getLast? = some '/' then dir ++ name
  else dir ++ "/" ++ name

/-- `save_path.replace("/", "\\")`. -/
def replaceSlash (s : String) : String := String.mk (expandChar '/' ['\\'] s.data)

/-- The body of one `save_resources` loop iteration up to its exception
handlers: fetch the signed URL, name the file after `entry.id` and the
basename of the position-matched raw URL (`IndexError` when there is no such
position, `AttributeError` when it is not a string), write the bytes, and
report the path with slashes replaced by backslashes. -/
def saveFile (fetch : Json → Except PyErr (List Nat))
    (write : String → List Nat → Except PyErr Unit)
    (entryId : String) (directory : String) (urls : List Json)
    (idx : Nat) (resource_url : Json) : Except PyErr String :=
  match fetch resource_url with
  | .error e => .error e
  | .ok content =>
    match urls.get? idx with
    | none => .error (.indexError "list index out of range")
    | some raw =>
      match raw with
      | .str rawStr =>
        let savePath := pathJoin directory (entryId ++ "_" ++ lastComponent rawStr)
        (match write savePath content with
         | .error e => .error e
         | .ok _ => .ok (replaceSlash savePath))
      | _ => .error (.attributeError "split")

/-- `Journal.save_resources`: collect raw URLs (outside any handler), get
the signed URLs, and iterate `enumerate(signed_urls)`; both `except` clauses
of the loop log and skip, so each iteration either appends one saved path or
leaves the accumulator unchanged. -/
def Journal.save_resources (fetch : Json → Except PyErr (List Nat))
    (write : String → List Nat → Except PyErr Unit)
    (sign : String → Except PyErr Json)
    (entry : Entry) (directory : String) : Except PyErr (List String) :=
  match entry.get_resource_urls with
  | .error e => .error e
  | .ok urls =>
    match pyIter (Journal.get_signed_resource_urls sign entry) with
    | .error e => .error e
    | .ok signed_urls =>
      .ok
        (signed_urls.enum.foldl
          (fun acc p =>
            match saveFile fetch write entry.id directory urls p.1 p.2 with
            | .ok path => acc ++ [path]
            | .error _ => acc)
          [])

/-! ### Concrete fixtures

Payloads, oracles, and result projections used to evaluate the model at
concrete inputs. -/

/-- A well-formed timestamp value. -/
def fxTs : Json := .str "2024-01-01T00:00:00Z"

/-- The datetime `fxTs` parses to. -/
def fxDT : DT := ⟨2024, 1, 1, 0, 0, 0, 0, some 0⟩

/-- A payload with all required fields, parametrized by id, type,
utterance, and data. -/
def fxPayload (i ty : String) (utter : List (String × Json)) (d : List (String × Json)) :
    List (String × Json) :=
  [("_id", .str i), ("userId", .str "u1"), ("createdOn", fxTs), ("modifiedOn", fxTs),
   ("archived", .bool false), ("type", .str ty), ("title", .str "t"),
   ("data", .obj d), ("utterance", .obj utter)]

/-- An utterance dict carrying a `prompt`. -/
def fxPrompt : List (String × Json) := [("prompt", .str "hi"), ("intention", .str "X")]

/-- A valid `note` payload. -/
def fxNote (i : String) : List (String × Json) := fxPayload i "note" fxPrompt []

/-- A valid `note` payload whose utterance has no `prompt` key. -/
def fxNoPrompt : List (String × Json) := fxPayload "e2" "note" [] []

/-- A fully valid payload except for an unknown `type`. -/
def fxUnknown : List (String × Json) := fxPayload "e3" "unknown-xyz" fxPrompt []

/-- A `vision` payload with three resource files. -/
def fxVision3 : List (String × Json) :=
  fxPayload "v1" "vision" fxPrompt
    [("visionData", .obj [("files", .arr
      [.obj [("url", .str "http://x/a.jpg")],
       .obj [("url", .str "http://x/b.jpg")],
       .obj [("url", .str "http://x/c.jpg")]])])]

/-- A `vision` payload with one file whose `url` key holds the empty
string. -/
def fxVisionBlank : List (String × Json) :=
  fxPayload "v2" "vision" fxPrompt
    [("visionData", .obj [("files", .arr [.obj [("url", .str "")]])])]

/-- Fallback entry for result projections. -/
def entryFallback : Entry := ⟨"", "", fxDT, fxDT, false, "", "", [], [], .base⟩

/-- Project the entry out of a `_create_entry` result. -/
def entryOfCreate (r : Except PyErr (Option Entry)) : Entry :=
  match r with
  | .ok (some e) => e
  | _ => entryFallback

/-- The journal an `add_entry` call left behind (also on an escaped
exception). -/
def resJournal (r : Except (PyErr × Journal) (Journal × Option Entry)) : Journal :=
  match r with
  | .ok (j, _) => j
  | .error (_, j) => j

/-- The entry an `add_entry` call produced, if any. -/
def resEntry (r : Except (PyErr × Journal) (Journal × Option Entry)) : Entry :=
  match r with
  | .ok (_, some e) => e
  | _ => entryFallback

/-- Whether an `Except` result is a success. -/
def exceptOk {ε α : Type} : Except ε α → Bool
  | .ok _ => true
  | .error _ => false

/-- The validated note entry of `fxNote "e1"`. -/
def fxNoteEntry : Entry := entryOfCreate (Journal._create_entry "f0" (fxNote "e1"))

/-- The validated vision entry of `fxVision3`. -/
def fxVision3Entry : Entry := entryOfCreate (Journal._create_entry "f0" fxVision3)

/-- The validated vision entry of `fxVisionBlank`. -/
def fxVisionBlankEntry : Entry := entryOfCreate (Journal._create_entry "f0" fxVisionBlank)

/-- A vision payload matching the spec scenario: one file with a `url`,
one empty file descriptor. -/
def fxVisionSpec : List (String × Json) :=
  fxPayload "v4" "vision" fxPrompt
    [("visionData", .obj [("files", .arr [.obj [("url", .str "http://x/a.jpg")], .obj []])])]

/-- The validated vision entry of `fxVisionSpec`. -/
def fxVisionSpecEntry : Entry := entryOfCreate (Journal._create_entry "f0" fxVisionSpec)

/-- A vision entry whose `data` has no `visionData` key. -/
def fxVisionEmptyEntry : Entry :=
  ⟨"v5", "u1", fxDT, fxDT, false, "vision", "t", [], [("prompt", "p")], .vision⟩

/-- A signing oracle answering three signed URLs. -/
def fxSign3 : String → Except PyErr Json := fun _ =>
  .ok (.obj [("resources", .arr [.str "s1", .str "s2", .str "s3"])])

/-- A signing oracle answering five signed URLs (more than `fxVision3` has
raw URLs). -/
def fxSignExcess : String → Except PyErr Json := fun _ =>
  .ok (.obj [("resources", .arr [.str "s1", .str "s2", .str "s3", .str "s4", .str "s5"])])

/-- A failing signing oracle. -/
def fxSignFail : String → Except PyErr Json := fun _ => .error (.requestException "down")

/-- A transport oracle failing exactly on the signed URL `"s2"`. -/
def fxFetch2Fails : Json → Except PyErr (List Nat) := fun u =>
  match u with
  | .str s => if s = "s2" then .error (.requestException "timeout") else .ok [7]
  | _ => .error (.requestException "bad url")

/-- A transport oracle that always succeeds. -/
def fxFetchOK : Json → Except PyErr (List Nat) := fun _ => .ok [7]

/-- A filesystem oracle that always succeeds. -/
def fxWrite : String → List Nat → Except PyErr Unit := fun _ _ => .ok ()

/-- Capacity-2 run inserting three valid notes. -/
def c1Items : List (String × EntryData × Option String) :=
  [("f1", .dict (fxNote "a1"), none), ("f2", .dict (fxNote "a2"), none),
   ("f3", .dict (fxNote "a3"), none)]

/-- The result of the capacity-2 run. -/
def c1Run : Except (PyErr × Journal) (Journal × List (Option Entry)) :=
  (Journal.init 2).addAll fxDT c1Items

/-- Final journal of the capacity-2 run. -/
def c1J : Journal :=
  match c1Run with
  | .ok (j, _) => j
  | .error (_, j) => j

/-- Per-call results of the capacity-2 run. -/
def c1Os : List (Option Entry) :=
  match c1Run with
  | .ok (_, os) => os
  | .error _ => []

/-- An `add_entry` call that supplies a response on an entry whose
utterance lacks `prompt`. -/
def c2Run : Except (PyErr × Journal) (Journal × Option Entry) :=
  (Journal.init 5).add_entry "f1" fxDT (.dict fxNoPrompt) (some "ok")

/-- The journal state `c2Run` leaves behind. -/
def c2J : Journal := resJournal c2Run

/-- The base entry `create_entry_model` builds for the unknown type. -/
def c3Entry : Entry :=
  match create_entry_model "f0" fxUnknown with
  | .ok e => e
  | .error _ => entryFallback

/-- An `add_entry` call with an empty-string response. -/
def c7Run : Except (PyErr × Journal) (Journal × Option Entry) :=
  (Journal.init 3).add_entry "f1" fxDT (.dict (fxNote "e1")) (some "")

/-- Journal after `c7Run`. -/
def c7J : Journal := resJournal c7Run

/-- Entry created by `c7Run`. -/
def c7E : Entry := resEntry c7Run

/-- An `add_entry` call with no response. -/
def c7wRun : Except (PyErr × Journal) (Journal × Option Entry) :=
  (Journal.init 3).add_entry "f1" fxDT (.dict (fxNote "e1")) none

/-- An `add_entry` call with a non-empty response. -/
def c7w2Run : Except (PyErr × Journal) (Journal × Option Entry) :=
  (Journal.init 3).add_entry "f1" fxDT (.dict (fxNote "e1")) (some "resp")

/-- The saved-path list of a `save_resources` result. -/
def savedList (r : Except PyErr (List String)) : List String :=
  match r with
  | .ok l => l
  | .error _ => []

/-- `save_resources` on the 3-url vision entry with the 2nd fetch failing. -/
def c6Run : Except PyErr (List String) :=
  Journal.save_resources fxFetch2Fails fxWrite fxSign3 fxVision3Entry "dir"

/-- `save_resources` with a failing signing service. -/
def c9Run : Except PyErr (List String) :=
  Journal.save_resources fxFetch2Fails fxWrite fxSignFail fxVision3Entry "dir"

/-- `save_resources` with five signed URLs against three raw URLs. -/
def c10Run : Except PyErr (List String) :=
  Journal.save_resources fxFetchOK fxWrite fxSignExcess fxVision3Entry "dir"

/-! ## Helper lemmas -/

/-- `collectUrls` over a list of dicts never fails: it returns, in order,
the truthy `url` values. -/
theorem collectUrls_objs (fs : List (List (String × Json))) :
    collectUrls (fs.map Json.obj) =
      Except.ok ((fs.map (fun o => o.lookup "url")).filterMap
        (fun u => u.bind (fun x => if x.truthy then some x else none))) := by
  induction fs with
  | nil => rfl
  | cons o fs ih =>
    cases ho : o.lookup "url" with
    | none => simp [collectUrls, pyObjGet, Except.bind, ho, ih, List.filterMap_cons]
    | some x =>
      cases hx : x.truthy <;>
        simp [collectUrls, pyObjGet, Except.bind, ho, hx, ih, List.filterMap_cons]

/-- Length of a deque append: grows by one until the capacity is reached,
then stays at the capacity. -/
theorem dequeAppend_length (n : Nat) (xs : List α) (x : α) :
    (dequeAppend n xs x).length = min (xs.length + 1) n := by
  unfold dequeAppend
  simp only []
  split
  · simp only [List.length_drop, List.length_append, List.length_cons, List.length_nil]
    omega
  · simp only [List.length_append, List.length_cons, List.length_nil]
    simp at *
    omega

/-- `_create_entry` raises only the unknown-type `ValueError`. -/
theorem create_entry_error_shape (fid : String) (kvs : List (String × Json)) (e₀ : PyErr)
    (h : Journal._create_entry fid kvs = .error e₀) :
    e₀ = .valueError ("Unknown entry type: " ++ pyStr (((kvs.lookup "type")).getD .null)) := by
  unfold Journal._create_entry at h
  simp only [] at h
  split at h
  · split at h
    · exact Except.noConfusion h
    · exact Except.noConfusion h
  · injection h with h2
    exact h2.symm

/-- `_add_interaction` succeeds exactly by appending the interaction. -/
theorem add_interaction_ok_shape (j : Journal) (e : Entry) (r : String) (j' : Journal)
    (h : j._add_interaction e r = .ok j') :
    j'.maxEntries = j.maxEntries ∧ j'.entries = j.entries ∧
      ∃ p, e.utterance.lookup "prompt" = some p ∧
        j'.interactions = dequeAppend j.maxEntries j.interactions ⟨e.id, e.createdOn, p, r⟩ := by
  unfold Journal._add_interaction at h
  split at h
  · exact Except.noConfusion h
  · rename_i p hp
    injection h with h2
    subst h2
    exact ⟨rfl, rfl, p, hp, rfl⟩

/-- `_add_interaction` fails only with `KeyError('prompt')`. -/
theorem add_interaction_error_shape (j : Journal) (e : Entry) (r : String) (err : PyErr)
    (h : j._add_interaction e r = .error err) : err = .keyError "prompt" := by
  unfold Journal._add_interaction at h
  split at h
  · injection h with h2
    exact h2.symm
  · exact Except.noConfusion h

/-- Behavior of a successful `add_entry` call: capacity is preserved; a
no-entry result leaves the journal untouched, a created entry is appended
to the entries deque, and the interactions deque changes exactly when a
non-empty response was supplied. -/
theorem add_entry_spec (j : Journal) (fid : String) (now : DT) (d : EntryData)
    (r : Option String) (j₂ : Journal) (o : Option Entry)
    (h : j.add_entry fid now d r = .ok (j₂, o)) :
    j₂.maxEntries = j.maxEntries ∧
    ((o = none ∧ j₂ = j) ∨
     (∃ e, o = some e ∧
        j₂.entries = dequeAppend j.maxEntries j.entries e ∧
        ((r = none ∨ r = some "") → j₂.interactions = j.interactions) ∧
        (∀ s, r = some s → s ≠ "" →
           ∃ p, e.utterance.lookup "prompt" = some p ∧
             j₂.interactions = dequeAppend j.maxEntries j.interactions
               ⟨e.id, e.createdOn, p, s⟩))) := by
  unfold Journal.add_entry at h
  simp only [] at h
  split at h
  · split at h
    · injection h with h2
      injection h2 with hj ho
      subst hj; subst ho
      exact ⟨rfl, Or.inl ⟨rfl, rfl⟩⟩
    · exact Except.noConfusion h
  · injection h with h2
    injection h2 with hj ho
    subst hj; subst ho
    exact ⟨rfl, Or.inl ⟨rfl, rfl⟩⟩
  · rename_i entry _
    split at h
    · injection h with h2
      injection h2 with hj ho
      subst hj
      refine ⟨rfl, Or.inr ⟨entry, ho.symm, rfl, fun _ => rfl, ?_⟩⟩
      intro s hs
      exact absurd hs (by simp)
    · rename_i r'
      by_cases hr : r' = ""
      · rw [if_pos hr] at h
        injection h with h2
        injection h2 with hj ho
        subst hj
        refine ⟨rfl, Or.inr ⟨entry, ho.symm, rfl, fun _ => rfl, ?_⟩⟩
        intro s hs hne
        injection hs with hs'
        exact absurd (hs' ▸ hr) hne
      · rw [if_neg hr] at h
        split at h
        · rename_i j'' hadd
          obtain ⟨hm, he, p, hp, hi⟩ := add_interaction_ok_shape _ _ _ _ hadd
          injection h with h2
          injection h2 with hj ho
          subst hj
          refine ⟨hm, Or.inr ⟨entry, ho.symm, ?_, ?_, ?_⟩⟩
          · rw [he]
          · intro hcase
            rcases hcase with hc | hc
            · exact Option.noConfusion hc
            · injection hc with hc'
              exact absurd hc' hr
          · intro s hs hne
            injection hs with hs'
            subst hs'
            exact ⟨p, hp, by rw [hi]⟩
        · rename_i err hadd
          have := add_interaction_error_shape _ _ _ _ hadd
          subst this
          simp [isTVError] at h

/-- `add_entry` escapes only with `KeyError('prompt')`, and only when a
non-empty response string was supplied. -/
theorem add_entry_error_shape (j : Journal) (fid : String) (now : DT) (d : EntryData)
    (r : Option String) (err : PyErr) (j₁ : Journal)
    (h : j.add_entry fid now d r = .error (err, j₁)) :
    err = .keyError "prompt" ∧ r ≠ none ∧ r ≠ some "" := by
  unfold Journal.add_entry at h
  simp only [] at h
  split at h
  · rename_i e₀ hc
    have := create_entry_error_shape _ _ _ hc
    subst this
    simp [isTVError] at h
  · exact Except.noConfusion h
  · rename_i entry _
    split at h
    · exact Except.noConfusion h
    · rename_i r'
      by_cases hr : r' = ""
      · rw [if_pos hr] at h
        exact Except.noConfusion h
      · rw [if_neg hr] at h
        split at h
        · exact Except.noConfusion h
        · rename_i e₁ hadd
          have he := add_interaction_error_shape _ _ _ _ hadd
          subst he
          simp only [isTVError, Bool.false_eq_true, if_false] at h
          injection h with h2
          injection h2 with he2 hj2
          refine ⟨he2.symm, ?_, ?_⟩
          · intro hc
            exact Option.noConfusion hc
          · intro hc
            injection hc with hc'
            exact absurd hc' hr

/-! ## Claim C3: unknown entry types -/

/-- C3 (amended): a payload whose `type` is a string outside
`entry_type_mapping` makes the store's factory `_create_entry` fail with
`ValueError` naming the offending type string, and `add_entry` converts
that to a no-entry result with the journal unchanged.  (The claim's further
assertion that no silent fallback is ever produced fails for the
module-level factory `create_entry_model`; see the counterexample.) -/
theorem unknown_type_store_rejection (j : Journal) (fid : String) (now : DT)
    (payload : List (String × Json)) (t : String) (r : Option String)
    (ht : payload.lookup "type" = some (.str t))
    (hm : entry_type_mapping.lookup t = none) :
    Journal._create_entry fid payload =
      .error (.valueError ("Unknown entry type: " ++ t)) ∧
    j.add_entry fid now (.dict payload) r = .ok (j, none) := by
  have h1 : Journal._create_entry fid payload =
      .error (.valueError ("Unknown entry type: " ++ t)) := by
    simp [Journal._create_entry, ht, hm, pyStr]
  refine ⟨h1, ?_⟩
  unfold Journal.add_entry
  simp only []
  rw [h1]
  simp [isTVError]

/-- C3 counterexample: for the fully valid payload `fxUnknown` with
`type = "unknown-xyz"`, the module-level factory `create_entry_model` does
not fail: it silently produces an entry of the generic base class. -/
theorem create_entry_model_fallback_cex :
    create_entry_model "f0" fxUnknown = .ok c3Entry ∧ c3Entry.cls = .base :=
  ⟨rfl, rfl⟩

/-- C3 witness: the amended theorem at the concrete payload `fxUnknown`. -/
theorem unknown_type_store_rejection_witness :
    Journal._create_entry "f0" fxUnknown =
      .error (.valueError ("Unknown entry type: " ++ "unknown-xyz")) ∧
    (Journal.init 2).add_entry "f0" fxDT (.dict fxUnknown) none =
      .ok (Journal.init 2, none) :=
  unknown_type_store_rejection (Journal.init 2) "f0" fxDT fxUnknown "unknown-xyz" none rfl rfl

/-! ## Claim C4: non-resource variants -/

/-- C4 (amended): the non-resource variants (`note`, `conversation` — also
covering the `beta-rabbit` alias — `search`, `search-memory`) define no
`get_resource_urls` method, so invoking it raises `AttributeError` rather
than returning an empty list; and extraction is a pure function of the
entry's class and `data`, so repeated calls yield identical, order-stable
results. -/
theorem nonresource_get_resource_urls :
    (∀ e : Entry,
        e.cls = .note ∨ e.cls = .conversation ∨ e.cls = .search ∨ e.cls = .searchMemory →
        e.get_resource_urls = .error (.attributeError "get_resource_urls")) ∧
    (∀ e₁ e₂ : Entry, e₁.cls = e₂.cls → e₁.data = e₂.data →
        e₁.get_resource_urls = e₂.get_resource_urls) := by
  constructor
  · intro e h
    rcases h with h | h | h | h <;> simp [Entry.get_resource_urls, h]
  · intro e₁ e₂ h1 h2
    simp only [Entry.get_resource_urls]
    rw [h1, h2]

/-- C4 counterexample: `fxNoteEntry` is a validated `note` entry, yet
resource-URL extraction raises `AttributeError` instead of returning the
empty list. -/
theorem note_get_resource_urls_cex :
    Journal._create_entry "f0" (fxNote "e1") = .ok (some fxNoteEntry) ∧
    fxNoteEntry.cls = .note ∧
    fxNoteEntry.get_resource_urls = .error (.attributeError "get_resource_urls") ∧
    fxNoteEntry.get_resource_urls ≠ .ok [] := by
  refine ⟨rfl, rfl, rfl, ?_⟩
  intro h
  rw [show fxNoteEntry.get_resource_urls =
      Except.error (.attributeError "get_resource_urls") from rfl] at h
  exact Except.noConfusion h

/-- C4 witness: the amended theorem applied to the concrete note entry. -/
theorem nonresource_get_resource_urls_witness :
    fxNoteEntry.get_resource_urls = .error (.attributeError "get_resource_urls") ∧
    fxNoteEntry.get_resource_urls = fxNoteEntry.get_resource_urls :=
  ⟨nonresource_get_resource_urls.1 fxNoteEntry (Or.inl rfl),
   nonresource_get_resource_urls.2 fxNoteEntry fxNoteEntry rfl rfl⟩

/-! ## Claim C5: vision resource extraction -/

/-- C5 (amended): vision extraction returns `[]` when the nested structure
is missing (`visionData` absent, or present without `files`), and for a
well-formed files list (each descriptor a dict) it returns, in order, the
`url` values that are present and truthy — a descriptor whose `url` is
absent or falsy (for example the empty string) is skipped. -/
theorem vision_resource_extraction :
    (∀ e : Entry, e.cls = .vision → e.data.lookup "visionData" = none →
        e.get_resource_urls = .ok []) ∧
    (∀ (e : Entry) (vd : List (String × Json)), e.cls = .vision →
        e.data.lookup "visionData" = some (.obj vd) → vd.lookup "files" = none →
        e.get_resource_urls = .ok []) ∧
    (∀ (e : Entry) (vd : List (String × Json)) (fs : List (List (String × Json))),
        e.cls = .vision →
        e.data.lookup "visionData" = some (.obj vd) →
        vd.lookup "files" = some (.arr (fs.map Json.obj)) →
        e.get_resource_urls = .ok ((fs.map (fun o => o.lookup "url")).filterMap
          (fun u => u.bind (fun x => if x.truthy then some x else none)))) := by
  refine ⟨?_, ?_, ?_⟩
  · intro e hcls hvd
    simp [Entry.get_resource_urls, hcls, extractFiles, hvd]
  · intro e vd hcls hvd hf
    simp [Entry.get_resource_urls, hcls, extractFiles, hvd, hf, pyObjGetD, pyIter,
      Except.bind, collectUrls]
  · intro e vd fs hcls hvd hf
    simp [Entry.get_resource_urls, hcls, extractFiles, hvd, hf, pyObjGetD, pyIter,
      Except.bind, collectUrls_objs]

/-- C5 counterexample: for a vision entry whose single file descriptor has
the `url` key with value `""`, extraction returns `[]`, not the found url
string `""` the claim requires. -/
theorem vision_blank_url_cex :
    Journal._create_entry "f0" fxVisionBlank = .ok (some fxVisionBlankEntry) ∧
    fxVisionBlankEntry.data =
      [("visionData", .obj [("files", .arr [.obj [("url", .str "")]])])] ∧
    fxVisionBlankEntry.get_resource_urls = .ok [] ∧
    fxVisionBlankEntry.get_resource_urls ≠ .ok [.str ""] := by
  refine ⟨rfl, rfl, rfl, ?_⟩
  intro h
  rw [show fxVisionBlankEntry.get_resource_urls = (Except.ok [] : Except PyErr (List Json))
      from rfl] at h
  injection h with h'
  exact List.noConfusion h'

/-- C5 witness: the amended theorem at the spec scenario (one file with a
url, one empty descriptor → exactly the one url) and at a vision entry with
no nested structure. -/
theorem vision_resource_extraction_witness :
    fxVisionSpecEntry.get_resource_urls = .ok [.str "http://x/a.jpg"] ∧
    fxVisionEmptyEntry.get_resource_urls = .ok [] :=
  ⟨vision_resource_extraction.2.2 fxVisionSpecEntry
      [("files", .arr [.obj [("url", .str "http://x/a.jpg")], .obj []])]
      [[("url", .str "http://x/a.jpg")], []] rfl rfl rfl,
   vision_resource_extraction.1 fxVisionEmptyEntry rfl rfl⟩

/-! ## Claim C2: the add_entry exception boundary -/

/-- C2 (amended): validation and construction failures are always caught at
the `add_entry` boundary and converted to a logged diagnostic plus a
no-entry result with the journal unchanged; the only exception that can
escape `add_entry` is the `KeyError('prompt')` raised by the interaction
step, which requires a non-empty response string to have been supplied (so
without a response, `add_entry` never raises). -/
theorem add_entry_exception_policy :
    (∀ (j : Journal) (fid : String) (now : DT) (d : EntryData) (r : Option String)
        (err : PyErr) (j₁ : Journal),
        j.add_entry fid now d r = .error (err, j₁) →
        err = .keyError "prompt" ∧ r ≠ none ∧ r ≠ some "") ∧
    (∀ (j : Journal) (fid : String) (now : DT) (kvs : List (String × Json))
        (r : Option String) (e₀ : PyErr),
        Journal._create_entry fid kvs = .error e₀ →
        j.add_entry fid now (.dict kvs) r = .ok (j, none)) := by
  constructor
  · exact fun j fid now d r err j₁ h => add_entry_error_shape j fid now d r err j₁ h
  · intro j fid now kvs r e₀ hc
    have := create_entry_error_shape _ _ _ hc
    subst this
    unfold Journal.add_entry
    simp only []
    rw [hc]
    simp [isTVError]

/-- C2 counterexample: for the valid payload `fxNoPrompt` (utterance dict
without a `prompt` key) together with the response `"ok"`, `add_entry`
raises `KeyError('prompt')` past its boundary — after having appended the
entry. -/
theorem add_entry_raises_cex :
    c2Run = .error (.keyError "prompt", c2J) ∧ c2J.entries.length = 1 :=
  ⟨rfl, rfl⟩

/-- C2 witness: the amended theorem at the concrete raising call and at a
concrete validation failure. -/
theorem add_entry_exception_policy_witness :
    (PyErr.keyError "prompt" = PyErr.keyError "prompt" ∧
        (some "ok" : Option String) ≠ none ∧ (some "ok" : Option String) ≠ some "") ∧
    (Journal.init 1).add_entry "f9" fxDT (.dict fxUnknown) none = .ok (Journal.init 1, none) :=
  ⟨add_entry_exception_policy.1 (Journal.init 5) "f1" fxDT (.dict fxNoPrompt) (some "ok")
      (.keyError "prompt") c2J rfl,
   add_entry_exception_policy.2 (Journal.init 1) "f9" fxDT fxUnknown none
      (.valueError ("Unknown entry type: " ++ "unknown-xyz")) rfl⟩

/-! ## Claim C7: interaction decoupling -/

/-- C7 (amended): a successful `add_entry` without a response — and, unlike
the claim's wording, also one whose supplied response is the empty string —
leaves the interactions log untouched; with a non-empty response (and the
entry's `prompt` present, without which the call raises instead), the
interaction is appended to the interactions deque, so its size grows by one
while below capacity and stays at the capacity once full. -/
theorem interaction_decoupling :
    (∀ (j : Journal) (fid : String) (now : DT) (d : EntryData) (j₂ : Journal) (e : Entry),
        j.add_entry fid now d none = .ok (j₂, some e) →
        j₂.interactions = j.interactions) ∧
    (∀ (j : Journal) (fid : String) (now : DT) (d : EntryData) (j₂ : Journal) (e : Entry),
        j.add_entry fid now d (some "") = .ok (j₂, some e) →
        j₂.interactions = j.interactions) ∧
    (∀ (j : Journal) (fid : String) (now : DT) (d : EntryData) (s : String) (j₂ : Journal)
        (e : Entry) (p : String),
        s ≠ "" → j.add_entry fid now d (some s) = .ok (j₂, some e) →
        e.utterance.lookup "prompt" = some p →
        j₂.interactions = dequeAppend j.maxEntries j.interactions ⟨e.id, e.createdOn, p, s⟩ ∧
        j₂.interactions.length = min (j.interactions.length + 1) j.maxEntries) := by
  refine ⟨?_, ?_, ?_⟩
  · intro j fid now d j₂ e h
    obtain ⟨hm, hcases⟩ := add_entry_spec j fid now d none j₂ (some e) h
    rcases hcases with ⟨ho, _⟩ | ⟨e', _, _, hnone, _⟩
    · exact Option.noConfusion ho
    · exact hnone (Or.inl rfl)
  · intro j fid now d j₂ e h
    obtain ⟨hm, hcases⟩ := add_entry_spec j fid now d (some "") j₂ (some e) h
    rcases hcases with ⟨ho, _⟩ | ⟨e', _, _, hnone, _⟩
    · exact Option.noConfusion ho
    · exact hnone (Or.inr rfl)
  · intro j fid now d s j₂ e p hs h hp
    obtain ⟨hm, hcases⟩ := add_entry_spec j fid now d (some s) j₂ (some e) h
    rcases hcases with ⟨ho, _⟩ | ⟨e', ho, _, _, hsome⟩
    · exact Option.noConfusion ho
    · injection ho with ho'
      subst ho'
      obtain ⟨p', hp', hi⟩ := hsome s rfl hs
      rw [hp] at hp'
      injection hp' with hp''
      subst hp''
      refine ⟨hi, ?_⟩
      rw [hi, dequeAppend_length]

/-- C7 counterexample: an `add_entry` call that supplies the response
string `""` produces an entry yet leaves the interactions log at size 0,
not size 1 as the claim requires for a supplied response. -/
theorem interaction_empty_response_cex :
    c7Run = .ok (c7J, some c7E) ∧
    c7J.entries.length = 1 ∧
    c7J.interactions.length = 0 ∧
    (Journal.init 3).interactions.length = 0 :=
  ⟨rfl, rfl, rfl, rfl⟩

/-- C7 witness: the amended theorem at a concrete no-response call and at a
concrete call with response `"resp"`. -/
theorem interaction_decoupling_witness :
    (resJournal c7wRun).interactions = (Journal.init 3).interactions ∧
    ((resJournal c7w2Run).interactions =
        dequeAppend (Journal.init 3).maxEntries (Journal.init 3).interactions
          ⟨(resEntry c7w2Run).id, (resEntry c7w2Run).createdOn, "hi", "resp"⟩ ∧
      (resJournal c7w2Run).interactions.length =
        min ((Journal.init 3).interactions.length + 1) (Journal.init 3).maxEntries) :=
  ⟨interaction_decoupling.1 (Journal.init 3) "f1" fxDT (.dict (fxNote "e1"))
      (resJournal c7wRun) (resEntry c7wRun) rfl,
   interaction_decoupling.2.2 (Journal.init 3) "f1" fxDT (.dict (fxNote "e1")) "resp"
      (resJournal c7w2Run) (resEntry c7w2Run) "hi" (by decide) rfl rfl⟩

/-! ## Claim C6: partial download tolerance -/

/-- C6: with three raw URLs and three signed URLs where the second fetch
fails, `save_resources` returns (without raising) exactly the two saved
paths derived from the first and third raw URLs, in order. -/
theorem save_resources_partial_failure
    (fetch : Json → Except PyErr (List Nat)) (write : String → List Nat → Except PyErr Unit)
    (sign : String → Except PyErr Json) (e : Entry) (dir : String)
    (u1 u2 u3 : String) (s1 s2 s3 : Json) (msg : String) (b1 b3 : List Nat)
    (hu : e.get_resource_urls = .ok [.str u1, .str u2, .str u3])
    (hs : Journal.get_signed_resource_urls sign e = .arr [s1, s2, s3])
    (h1 : fetch s1 = .ok b1)
    (h2 : fetch s2 = .error (.requestException msg))
    (h3 : fetch s3 = .ok b3)
    (w1 : write (pathJoin dir (e.id ++ "_" ++ lastComponent u1)) b1 = .ok ())
    (w3 : write (pathJoin dir (e.id ++ "_" ++ lastComponent u3)) b3 = .ok ()) :
    Journal.save_resources fetch write sign e dir =
      .ok [replaceSlash (pathJoin dir (e.id ++ "_" ++ lastComponent u1)),
           replaceSlash (pathJoin dir (e.id ++ "_" ++ lastComponent u3))] := by
  unfold Journal.save_resources
  rw [hu]
  simp only []
  rw [hs]
  simp only [pyIter]
  simp [List.enum, List.enumFrom, saveFile, h1, h2, h3, w1, w3]

/-- C6 witness: the theorem at the concrete vision entry and oracles. -/
theorem save_resources_partial_failure_witness :
    c6Run = .ok ["dir\\v1_a.jpg", "dir\\v1_c.jpg"] :=
  save_resources_partial_failure fxFetch2Fails fxWrite fxSign3 fxVision3Entry "dir"
    "http://x/a.jpg" "http://x/b.jpg" "http://x/c.jpg" (.str "s1") (.str "s2") (.str "s3")
    "timeout" [7] [7] rfl rfl rfl rfl rfl rfl rfl

/-! ## Claim C9: signing-service failure -/

/-- C9: when the signing-service call fails with any exception, the failure
is swallowed (treated as no signed URLs) and `save_resources` returns the
empty list of saved paths without propagating anything, regardless of the
transport and filesystem oracles. -/
theorem signing_failure_recovered
    (fetch : Json → Except PyErr (List Nat)) (write : String → List Nat → Except PyErr Unit)
    (sign : String → Except PyErr Json) (e : Entry) (dir : String)
    (urls : List Json) (err : PyErr)
    (hu : e.get_resource_urls = .ok urls)
    (hs : sign (jsonDumps (.arr urls)) = .error err) :
    Journal.save_resources fetch write sign e dir = .ok [] := by
  have hsig : Journal.get_signed_resource_urls sign e = .arr [] := by
    unfold Journal.get_signed_resource_urls
    rw [hu]
    simp only []
    rw [hs]
  unfold Journal.save_resources
  rw [hu]
  simp only []
  rw [hsig]
  simp [pyIter]

/-- C9 witness: the theorem at the concrete failing signing oracle. -/
theorem signing_failure_recovered_witness : c9Run = .ok [] :=
  signing_failure_recovered fxFetch2Fails fxWrite fxSignFail fxVision3Entry "dir"
    [.str "http://x/a.jpg", .str "http://x/b.jpg", .str "http://x/c.jpg"]
    (.requestException "down") rfl rfl

/-! ## Claim C10: excess signed URLs -/

/-- A successful `saveFile` implies the index had a matching raw URL. -/
theorem saveFile_ok_index (fetch : Json → Except PyErr (List Nat))
    (write : String → List Nat → Except PyErr Unit)
    (eid dir : String) (urls : List Json) (idx : Nat) (u : Json) (path : String)
    (h : saveFile fetch write eid dir urls idx u = .ok path) : idx < urls.length := by
  unfold saveFile at h
  split at h
  · exact Except.noConfusion h
  · split at h
    · exact Except.noConfusion h
    · rename_i raw hget
      by_cases hlt : idx < urls.length
      · exact hlt
      · rw [List.get?_eq_none.mpr (Nat.le_of_not_lt hlt)] at hget
        exact Option.noConfusion hget

/-- The download loop appends at most one path per position that has a raw
URL. -/
theorem saveLoop_length_le (fetch : Json → Except PyErr (List Nat))
    (write : String → List Nat → Except PyErr Unit)
    (eid dir : String) (urls : List Json) :
    ∀ (l : List (Nat × Json)) (acc : List String),
      (l.foldl (fun acc p =>
        match saveFile fetch write eid dir urls p.1 p.2 with
        | .ok path => acc ++ [path]
        | .error _ => acc) acc).length ≤
      acc.length + l.countP (fun p => decide (p.1 < urls.length)) := by
  intro l
  induction l with
  | nil => intro acc; simp
  | cons hd tl ih =>
    intro acc
    simp only [List.foldl_cons, List.countP_cons, decide_eq_true_eq]
    cases hf : saveFile fetch write eid dir urls hd.1 hd.2 with
    | ok path =>
      have hlt : hd.1 < urls.length :=
        saveFile_ok_index fetch write eid dir urls hd.1 hd.2 path hf
      have hih := ih (acc ++ [path])
      simp only [List.length_append, List.length_cons, List.length_nil] at hih
      simp only [if_pos hlt]
      omega
    | error e =>
      have hih := ih acc
      by_cases hlt : hd.1 < urls.length
      · simp only [if_pos hlt]
        omega
      · simp only [if_neg hlt]
        omega

/-- In `enumerate`, at most `n - i` positions carry an index below `n`. -/
theorem enumFrom_countP_lt (n : Nat) : ∀ (l : List α) (i : Nat),
    (l.enumFrom i).countP (fun p => decide (p.1 < n)) ≤ n - i := by
  intro l
  induction l with
  | nil => intro i; simp
  | cons x xs ih =>
    intro i
    simp only [List.enumFrom_cons, List.countP_cons, decide_eq_true_eq]
    have := ih (i + 1)
    by_cases hi : i < n
    · simp only [if_pos hi]
      omega
    · simp only [if_neg hi]
      omega

/-- C10: when the signing service returns more signed URLs than the entry
has raw URLs, `save_resources` does not raise — every excess position fails
inside the per-file handler and is skipped — and the returned list is never
longer than the raw URL list. -/
theorem excess_signed_urls_safe
    (fetch : Json → Except PyErr (List Nat)) (write : String → List Nat → Except PyErr Unit)
    (sign : String → Except PyErr Json) (e : Entry) (dir : String)
    (urls signed : List Json)
    (hu : e.get_resource_urls = .ok urls)
    (hs : Journal.get_signed_resource_urls sign e = .arr signed) :
    Journal.save_resources fetch write sign e dir =
      .ok (savedList (Journal.save_resources fetch write sign e dir)) ∧
    (savedList (Journal.save_resources fetch write sign e dir)).length ≤ urls.length := by
  unfold Journal.save_resources
  rw [hu]
  simp only []
  rw [hs]
  simp only [pyIter]
  refine ⟨rfl, ?_⟩
  simp only [savedList]
  have h1 := saveLoop_length_le fetch write e.id dir urls signed.enum []
  have h2 := enumFrom_countP_lt urls.length signed 0
  simp only [List.enum] at h1 ⊢
  simp only [List.length_nil] at h1
  omega

/-- C10 witness: the theorem at the concrete oracles with five signed URLs
against three raw URLs. -/
theorem excess_signed_urls_safe_witness :
    c10Run = .ok (savedList c10Run) ∧ (savedList c10Run).length ≤ 3 :=
  excess_signed_urls_safe fxFetchOK fxWrite fxSignExcess fxVision3Entry "dir"
    [.str "http://x/a.jpg", .str "http://x/b.jpg", .str "http://x/c.jpg"]
    [.str "s1", .str "s2", .str "s3", .str "s4", .str "s5"] rfl rfl

/-! ## Claim C1: capacity and FIFO eviction -/

/-- Folding deque appends keeps exactly the most recent `n` elements. -/
theorem foldl_dequeAppend_drop (n : Nat) :
    ∀ (es xs : List α), xs.length ≤ n →
      es.foldl (dequeAppend n) xs = (xs ++ es).drop ((xs ++ es).length - n) := by
  intro es
  induction es with
  | nil =>
    intro xs h
    simp [Nat.sub_eq_zero_of_le h]
  | cons e es ih =>
    intro xs h
    rw [List.foldl_cons,
      ih (dequeAppend n xs e) (by rw [dequeAppend_length]; exact Nat.min_le_right _ _)]
    by_cases hlt : n < xs.length + 1
    · have hd : dequeAppend n xs e = (xs ++ [e]).drop ((xs ++ [e]).length - n) := by
        unfold dequeAppend
        simp only []
        rw [if_pos (by simp only [List.length_append, List.length_cons, List.length_nil]; omega)]
      rw [hd, ← List.drop_append_of_le_length
        (by simp only [List.length_append, List.length_cons, List.length_nil]; omega),
        List.drop_drop]
      have hlist : (xs ++ [e]) ++ es = xs ++ e :: es := by
        simp
      rw [hlist]
      congr 1
      simp only [List.length_drop, List.length_append, List.length_cons, List.length_nil]
      omega
    · have hd : dequeAppend n xs e = xs ++ [e] := by
        unfold dequeAppend
        simp only []
        rw [if_neg (by simp only [List.length_append, List.length_cons, List.length_nil]; omega)]
      rw [hd]
      have hlist : (xs ++ [e]) ++ es = xs ++ e :: es := by
        simp
      rw [hlist]

/-- A successful `addAll` in which every call produced an entry folds those
entries into the entries deque in order. -/
theorem addAll_ok_entries (now : DT) :
    ∀ (items : List (String × EntryData × Option String)) (j j' : Journal)
      (os : List (Option Entry)),
      j.addAll now items = .ok (j', os) →
      (∀ o ∈ os, o.isSome = true) →
      j'.maxEntries = j.maxEntries ∧
      j'.entries = os.reduceOption.foldl (dequeAppend j.maxEntries) j.entries := by
  intro items
  induction items with
  | nil =>
    intro j j' os h hall
    unfold Journal.addAll at h
    injection h with h2
    injection h2 with hj ho
    subst hj
    subst ho
    exact ⟨rfl, rfl⟩
  | cons it items ih =>
    intro j j' os h hall
    obtain ⟨fid, d, r⟩ := it
    unfold Journal.addAll at h
    split at h
    · rename_i j₁ o hadd
      split at h
      · rename_i j₂ os' hrest
        injection h with h2
        injection h2 with hj ho
        subst hj
        subst ho
        obtain ⟨hm1, hcase⟩ := add_entry_spec _ _ _ _ _ _ _ hadd
        have hoS : o.isSome = true := hall o (by simp)
        rcases hcase with ⟨hnone, _⟩ | ⟨e, hoe, hent, _, _⟩
        · rw [hnone] at hoS
          exact Bool.noConfusion hoS
        · subst hoe
          obtain ⟨hm2, hent2⟩ := ih j₁ j₂ os' hrest (fun o ho => hall o (by simp [ho]))
          constructor
          · rw [hm2, hm1]
          · rw [hent2, hm1, hent, List.reduceOption_cons_of_some, List.foldl_cons]
      · exact Except.noConfusion h
    · exact Except.noConfusion h

/-- C1: starting from an empty journal of capacity `N`, after a sequence of
`add_entry` calls that all validated successfully and produced `M > N`
entries, the entries log holds exactly the `N` most recently inserted
entries in insertion order — the evicted ones are the least recently
inserted, independent of entry type or content. -/
theorem journal_capacity_fifo (N : Nat) (now : DT)
    (items : List (String × EntryData × Option String)) (j' : Journal)
    (os : List (Option Entry))
    (h : (Journal.init N).addAll now items = .ok (j', os))
    (hall : ∀ o ∈ os, o.isSome = true)
    (hM : N < os.reduceOption.length) :
    j'.entries = os.reduceOption.drop (os.reduceOption.length - N) ∧
    j'.entries.length = N := by
  obtain ⟨hm, hent⟩ := addAll_ok_entries now items (Journal.init N) j' os h hall
  simp only [Journal.init] at hent
  rw [hent, foldl_dequeAppend_drop N os.reduceOption [] (by simp)]
  constructor
  · simp
  · simp only [List.length_drop, List.nil_append]
    omega

/-- C1 witness: capacity 2, three valid notes inserted; the log holds the
last two in order. -/
theorem journal_capacity_fifo_witness :
    c1J.entries = c1Os.reduceOption.drop (c1Os.reduceOption.length - 2) ∧
    c1J.entries.length = 2 :=
  journal_capacity_fifo 2 fxDT c1Items c1J c1Os rfl (by decide) (by decide)

/-! ## Claim C8: timestamp round-trip -/

theorem parse2_pad2 : ∀ n, n < 100 → parse2 (Nat.digitChar (n / 10)) (Nat.digitChar (n % 10)) = some n := by decide

theorem eat2_pad2 (n : Nat) (h : n < 100) (rest : List Char) :
    eat2 (pad2 n ++ rest) = some (n, rest) := by
  simp [pad2, eat2, parse2_pad2 n h]

theorem pad2_isDigit : ∀ n, n < 100 → ∀ c ∈ pad2 n, c.isDigit = true := by decide

theorem digit_ne_Z (c : Char) (h : c.isDigit = true) : c ≠ 'Z' := by
  intro he
  subst he
  exact absurd h (by decide)

theorem expandChar_of_not_mem (t : Char) (r : List Char) :
    ∀ (cs : List Char), (∀ c ∈ cs, c ≠ t) → expandChar t r cs = cs := by
  intro cs
  induction cs with
  | nil => intro _; rfl
  | cons c cs ih =>
    intro h
    unfold expandChar
    rw [if_neg (h c (by simp))]
    simp [ih (fun c hc => h c (by simp [hc]))]

theorem natFromDigits_aux (cs : List Char) : ∀ acc : Nat,
    cs.foldl (fun a c => a * 10 + (c.toNat - 48)) acc =
      acc * 10 ^ cs.length + natFromDigits cs := by
  induction cs with
  | nil => intro acc; simp [natFromDigits]
  | cons c cs ih =>
    intro acc
    simp only [List.foldl_cons, natFromDigits, List.length_cons]
    rw [ih (acc * 10 + (c.toNat - 48)), ih (0 * 10 + (c.toNat - 48))]
    ring

theorem natFromDigits_append (xs ys : List Char) :
    natFromDigits (xs ++ ys) = natFromDigits xs * 10 ^ ys.length + natFromDigits ys := by
  unfold natFromDigits
  rw [List.foldl_append]
  exact natFromDigits_aux ys _

theorem natFromDigits_pad2 : ∀ n, n < 100 → natFromDigits (pad2 n) = n := by decide

theorem natFromDigits_microChars (us : Nat) (h : us ≤ 999999) :
    natFromDigits (microChars us) = us := by
  unfold microChars
  rw [natFromDigits_append, natFromDigits_append,
    natFromDigits_pad2 _ (by omega), natFromDigits_pad2 _ (by omega),
    natFromDigits_pad2 _ (by omega)]
  simp [pad2]
  omega

theorem microChars_length (us : Nat) : (microChars us).length = 6 := by
  simp [microChars, pad2]

theorem microChars_isDigit (us : Nat) (h : us ≤ 999999) :
    ∀ c ∈ microChars us, c.isDigit = true := by
  intro c hc
  unfold microChars at hc
  simp only [List.mem_append] at hc
  rcases hc with (hc | hc) | hc
  · exact pad2_isDigit _ (by omega) c hc
  · exact pad2_isDigit _ (by omega) c hc
  · exact pad2_isDigit _ (by omega) c hc

theorem takeWhile_digits : ∀ (ds rest : List Char), (∀ c ∈ ds, c.isDigit = true) →
    (∀ c, rest.head? = some c → c.isDigit = false) →
    (ds ++ rest).takeWhile Char.isDigit = ds ∧ (ds ++ rest).dropWhile Char.isDigit = rest := by
  intro ds
  induction ds with
  | nil =>
    intro rest h1 h2
    simp only [List.nil_append]
    cases rest with
    | nil => simp
    | cons c cs =>
      have hc := h2 c rfl
      constructor
      · simp [List.takeWhile_cons, hc]
      · simp [List.dropWhile_cons, hc]
  | cons d ds ih =>
    intro rest h1 h2
    have hd := h1 d (by simp)
    obtain ⟨ht, hdrop⟩ := ih rest (fun c hc => h1 c (by simp [hc])) h2
    constructor
    · simp [List.takeWhile_cons, hd, ht]
    · simp [List.dropWhile_cons, hd, hdrop]

theorem toOffsetInt_roundtrip (off : Int) :
    toOffsetInt (decide (off < 0), off.natAbs / 60, off.natAbs % 60) = off := by
  unfold toOffsetInt
  by_cases h : off < 0
  · simp only [decide_eq_true_eq]
    rw [if_pos h]
    omega
  · simp only [decide_eq_true_eq]
    rw [if_neg h]
    omega

theorem parseOffset_neg (rest : List Char) :
    parseOffset ('-' :: rest) = parseOffsetTail true rest := rfl

theorem parseOffset_pos (rest : List Char) :
    parseOffset ('+' :: rest) = parseOffsetTail false rest := rfl

theorem parseOffsetTail_pads (neg : Bool) (a b : Nat) (ha : a < 100) (hb : b < 100) :
    parseOffsetTail neg (pad2 a ++ ':' :: pad2 b) = some (some (neg, a, b)) := by
  unfold parseOffsetTail
  rw [eat2_pad2 a ha]
  simp only []
  have h2 : eat2 (pad2 b) = some (b, []) := by
    have := eat2_pad2 b hb []
    simpa using this
  rw [h2]

theorem parseOffset_offsetChars (tzv : Option Int)
    (h : ∀ o, tzv = some o → o.natAbs ≤ 1439) :
    parseOffset (offsetChars tzv) =
      some (tzv.map (fun off => (decide (off < 0), off.natAbs / 60, off.natAbs % 60))) := by
  cases tzv with
  | none => rfl
  | some off =>
    have hb := h off rfl
    unfold offsetChars
    simp only []
    by_cases hneg : off < 0
    · rw [if_pos hneg]
      show parseOffset ('-' :: (pad2 (off.natAbs / 60) ++ ':' :: pad2 (off.natAbs % 60))) = _
      rw [parseOffset_neg, parseOffsetTail_pads true _ _ (by omega) (by omega)]
      simp [hneg]
    · rw [if_neg hneg]
      show parseOffset ('+' :: (pad2 (off.natAbs / 60) ++ ':' :: pad2 (off.natAbs % 60))) = _
      rw [parseOffset_pos, parseOffsetTail_pads false _ _ (by omega) (by omega)]
      simp [hneg]

theorem offsetChars_head_not_digit (tzv : Option Int) :
    ∀ c, (offsetChars tzv).head? = some c → c.isDigit = false := by
  intro c hc
  cases tzv with
  | none => exact Option.noConfusion hc
  | some off =>
    unfold offsetChars at hc
    simp only [] at hc
    by_cases hneg : off < 0
    · rw [if_pos hneg] at hc
      injection hc with hc2
      subst hc2
      decide
    · rw [if_neg hneg] at hc
      injection hc with hc2
      subst hc2
      decide

theorem microOfFrac_microChars (us : Nat) (h : us ≤ 999999) :
    microOfFrac (microChars us) = us := by
  have ht : (microChars us).take 6 = microChars us := by
    rw [← microChars_length us]
    exact List.take_length _
  unfold microOfFrac
  rw [ht, microChars_length, natFromDigits_microChars us h]
  simp

theorem parseTime_print (d : DT) (hr : d.InRange) :
    parseTime (pad2 d.hour ++ ':' :: (pad2 d.minute ++ ':' :: (pad2 d.second ++
        (if d.microsecond = 0 then [] else '.' :: microChars d.microsecond) ++
        offsetChars d.tz))) =
      some (d.hour, d.minute, d.second, d.microsecond,
        d.tz.map (fun off => (decide (off < 0), off.natAbs / 60, off.natAbs % 60))) := by
  obtain ⟨h1, h2, h3, h4, h5, h6, h7, h8, h9, h10, h11⟩ := hr
  unfold parseTime
  rw [eat2_pad2 _ (by omega)]
  simp only []
  rw [eat2_pad2 _ (by omega)]
  simp only []
  rw [List.append_assoc, eat2_pad2 _ (by omega)]
  simp only []
  by_cases hm : d.microsecond = 0
  · rw [if_pos hm]
    simp only [List.nil_append]
    cases htz : d.tz with
    | none =>
      show Option.map _ (parseOffset (offsetChars none)) = _
      simp [parseOffset, offsetChars, hm]
    | some off =>
      unfold offsetChars
      simp only []
      by_cases hneg : off < 0
      · rw [if_pos hneg]
        show Option.map _ (parseOffset ('-' :: (pad2 (off.natAbs / 60) ++ ':' :: pad2 (off.natAbs % 60)))) = _
        rw [parseOffset_neg, parseOffsetTail_pads true _ _ (by have := h11 off htz; omega) (by omega)]
        simp [hneg, hm]
      · rw [if_neg hneg]
        show Option.map _ (parseOffset ('+' :: (pad2 (off.natAbs / 60) ++ ':' :: pad2 (off.natAbs % 60)))) = _
        rw [parseOffset_pos, parseOffsetTail_pads false _ _ (by have := h11 off htz; omega) (by omega)]
        simp [hneg, hm]
  · rw [if_neg hm]
    simp only [List.cons_append]
    show parseFrac d.hour d.minute d.second (microChars d.microsecond ++ offsetChars d.tz) = _
    unfold parseFrac
    obtain ⟨htake, hdrop⟩ := takeWhile_digits (microChars d.microsecond) (offsetChars d.tz)
      (microChars_isDigit _ h10) (offsetChars_head_not_digit d.tz)
    rw [htake, hdrop]
    simp only []
    rw [if_neg (by simp [microChars, pad2])]
    rw [parseOffset_offsetChars d.tz (fun o ho => by have := h11 o ho; omega)]
    simp [microOfFrac_microChars _ h10]

theorem daysInMonth_le (y m : Nat) : daysInMonth y m ≤ 31 := by
  unfold daysInMonth
  split
  · split <;> omega
  · split <;> omega

theorem parseRawISO_print (d : DT) (hr : d.InRange) :
    parseRawISO (isoformatChars d) =
      some ⟨d.year, d.month, d.day, d.hour, d.minute, d.second, d.microsecond,
        d.tz.map (fun off => (decide (off < 0), off.natAbs / 60, off.natAbs % 60))⟩ := by
  obtain ⟨h1, h2, h3, h4, h5, h6, h7, h8, h9, h10, h11⟩ := hr
  unfold isoformatChars parseRawISO
  rw [List.append_assoc]
  rw [eat2_pad2 _ (by omega)]
  simp only []
  rw [eat2_pad2 _ (by omega)]
  simp only []
  rw [eat2_pad2 _ (by omega)]
  simp only []
  rw [eat2_pad2 _ (by have := daysInMonth_le d.year d.month; omega)]
  simp only []
  rw [parseTime_print d ⟨h1, h2, h3, h4, h5, h6, h7, h8, h9, h10, h11⟩]
  simp only [Option.map]
  have hy : d.year / 100 * 100 + d.year % 100 = d.year := by omega
  rw [hy]

theorem offsetChars_no_Z (tzv : Option Int) (h : ∀ o, tzv = some o → o.natAbs ≤ 1439) :
    ∀ c ∈ offsetChars tzv, c ≠ 'Z' := by
  intro c hc
  cases tzv with
  | none => exact absurd hc (by simp [offsetChars])
  | some off =>
    have hb := h off rfl
    unfold offsetChars at hc
    simp only [] at hc
    rcases List.mem_cons.mp hc with hc | hc
    · rw [hc]
      by_cases hneg : off < 0
      · simp [hneg]
      · simp [hneg]
    · rcases List.mem_append.mp hc with hc | hc
      · exact digit_ne_Z c (pad2_isDigit _ (by omega) c hc)
      · rcases List.mem_cons.mp hc with hc | hc
        · rw [hc]; decide
        · exact digit_ne_Z c (pad2_isDigit _ (by omega) c hc)

theorem fracChars_no_Z (us : Nat) (h : us ≤ 999999) :
    ∀ c ∈ (if us = 0 then ([] : List Char) else '.' :: microChars us), c ≠ 'Z' := by
  intro c hc
  by_cases hm : us = 0
  · rw [if_pos hm] at hc
    exact absurd hc (by simp)
  · rw [if_neg hm] at hc
    rcases List.mem_cons.mp hc with hc | hc
    · rw [hc]; decide
    · exact digit_ne_Z c (microChars_isDigit us h c hc)

theorem noZ_append {l₁ l₂ : List Char} (g₁ : ∀ c ∈ l₁, c ≠ 'Z') (g₂ : ∀ c ∈ l₂, c ≠ 'Z') :
    ∀ c ∈ l₁ ++ l₂, c ≠ 'Z' := by
  intro c hc
  rcases List.mem_append.mp hc with hc | hc
  · exact g₁ c hc
  · exact g₂ c hc

theorem noZ_cons {x : Char} {l : List Char} (g₁ : x ≠ 'Z') (g₂ : ∀ c ∈ l, c ≠ 'Z') :
    ∀ c ∈ x :: l, c ≠ 'Z' := by
  intro c hc
  rcases List.mem_cons.mp hc with hc | hc
  · rw [hc]; exact g₁
  · exact g₂ c hc

theorem pad2_no_Z (n : Nat) (h : n < 100) : ∀ c ∈ pad2 n, c ≠ 'Z' :=
  fun c hc => digit_ne_Z c (pad2_isDigit n h c hc)

theorem isoformatChars_no_Z (d : DT) (hr : d.InRange) : ∀ c ∈ isoformatChars d, c ≠ 'Z' := by
  obtain ⟨h1, h2, h3, h4, h5, h6, h7, h8, h9, h10, h11⟩ := hr
  unfold isoformatChars
  exact noZ_append
    (noZ_append (pad2_no_Z _ (by omega)) (pad2_no_Z _ (by omega)))
    (noZ_cons (by decide)
      (noZ_append (pad2_no_Z _ (by omega))
        (noZ_cons (by decide)
          (noZ_append (pad2_no_Z _ (by have := daysInMonth_le d.year d.month; omega))
            (noZ_cons (by decide)
              (noZ_append (pad2_no_Z _ (by omega))
                (noZ_cons (by decide)
                  (noZ_append (pad2_no_Z _ (by omega))
                    (noZ_cons (by decide)
                      (noZ_append
                        (noZ_append (pad2_no_Z _ (by omega))
                          (fracChars_no_Z d.microsecond h10))
                        (offsetChars_no_Z d.tz h11)))))))))))

theorem validateRaw_print (d : DT) (hr : d.InRange) :
    validateRaw ⟨d.year, d.month, d.day, d.hour, d.minute, d.second, d.microsecond,
      d.tz.map (fun off => (decide (off < 0), off.natAbs / 60, off.natAbs % 60))⟩ = some d := by
  obtain ⟨h1, h2, h3, h4, h5, h6, h7, h8, h9, h10, h11⟩ := hr
  unfold validateRaw
  rw [if_pos]
  · have htz2 : (d.tz.map (fun off =>
        ((decide (off < 0) : Bool), off.natAbs / 60, off.natAbs % 60))).map toOffsetInt = d.tz := by
      cases d.tz with
      | none => rfl
      | some off =>
        simp only [Option.map]
        rw [toOffsetInt_roundtrip off]
    simp only []
    rw [htz2]
  · refine ⟨h1, h2, h3, h4, h5, h6, h7, h8, h9, h10, ?_⟩
    cases htz : d.tz with
    | none => exact trivial
    | some off =>
      have hb := h11 off htz
      simp only [Option.map]
      exact ⟨by omega, by omega⟩

theorem validateRaw_inRange (r : RawDT) (d : DT) (h : validateRaw r = some d) : d.InRange := by
  unfold validateRaw at h
  split at h
  · rename_i hcond
    injection h with h2
    subst h2
    obtain ⟨c1, c2, c3, c4, c5, c6, c7, c8, c9, c10, c11⟩ := hcond
    refine ⟨c1, c2, c3, c4, c5, c6, c7, c8, c9, c10, ?_⟩
    intro o ho
    cases hoff : r.off with
    | none =>
      rw [hoff] at ho
      exact Option.noConfusion ho
    | some trip =>
      obtain ⟨neg, oh, om⟩ := trip
      rw [hoff] at ho c11
      simp only [Option.map] at ho
      injection ho with ho2
      obtain ⟨hoh, hom⟩ := c11
      subst ho2
      unfold toOffsetInt
      cases neg <;> simp <;> omega
  · exact Option.noConfusion h

theorem parseISO_inRange (cs : List Char) (d : DT) (h : parseISO cs = some d) : d.InRange := by
  unfold parseISO at h
  cases hr : parseRawISO cs with
  | none =>
    rw [hr] at h
    exact Option.noConfusion h
  | some raw =>
    rw [hr] at h
    exact validateRaw_inRange raw d h

theorem parseISO_print (d : DT) (hr : d.InRange) : parseISO (isoformatChars d) = some d := by
  unfold parseISO
  rw [parseRawISO_print d hr]
  exact validateRaw_print d hr

/-- C8: a timestamp string accepted by the validator round-trips: the
parsed aware datetime re-serializes (via `isoformat`) to a string that the
validator parses back to the very same datetime — hence the same absolute
instant; and every string the parser rejects makes the validator fail with
`ValueError` naming the raw value. -/
theorem timestamp_roundtrip :
    (∀ (s : String) (d : DT), convert_to_datetime s = .ok d → d.tz ≠ none →
        convert_to_datetime d.isoformat = .ok d ∧
        ∀ d', convert_to_datetime d.isoformat = .ok d' → d'.toInstant = d.toInstant) ∧
    (∀ s : String, parseISO (replaceZ s.data) = none →
        convert_to_datetime s = .error (.valueError ("Invalid date format: " ++ s))) := by
  constructor
  · intro s d hok htz
    have hin : d.InRange := by
      unfold convert_to_datetime at hok
      cases hp : parseISO (replaceZ s.data) with
      | none =>
        rw [hp] at hok
        exact Except.noConfusion hok
      | some d0 =>
        rw [hp] at hok
        injection hok with h2
        subst h2
        exact parseISO_inRange _ _ hp
    have hnoZ : replaceZ (isoformatChars d) = isoformatChars d :=
      expandChar_of_not_mem 'Z' _ (isoformatChars d) (isoformatChars_no_Z d hin)
    have hconv : convert_to_datetime d.isoformat = .ok d := by
      unfold convert_to_datetime
      show (match parseISO (replaceZ (isoformatChars d)) with
        | some d0 => Except.ok d0
        | none =>
          Except.error (PyErr.valueError ("Invalid date format: " ++ d.isoformat))) =
        Except.ok d
      rw [hnoZ, parseISO_print d hin]
    refine ⟨hconv, ?_⟩
    intro d' hd'
    rw [hconv] at hd'
    injection hd' with h2
    rw [h2]
  · intro s hnone
    unfold convert_to_datetime
    rw [hnone]

/-- C8 witness: the theorem at a concrete leap-day timestamp with `Z`
suffix and fractional seconds, and at a concrete unparsable string. -/
theorem timestamp_roundtrip_witness :
    (convert_to_datetime (DT.isoformat ⟨2024, 2, 29, 23, 59, 59, 500000, some 0⟩) =
        .ok ⟨2024, 2, 29, 23, 59, 59, 500000, some 0⟩) ∧
    convert_to_datetime "garbage" =
      .error (.valueError ("Invalid date format: " ++ "garbage")) :=
  ⟨(timestamp_roundtrip.1 "2024-02-29T23:59:59.500000Z"
      ⟨2024, 2, 29, 23, 59, 59, 500000, some 0⟩ rfl (by decide)).1,
   timestamp_roundtrip.2 "garbage" rfl⟩
end LAMatHome
